import Mathlib

/-!
Verification development for the grid geometry engine in
`src/packages/grid/src/Grid.tsx` (a virtualized two-dimensional grid).

The definitions below are a shallow embedding of the code:
pixel quantities and indices are natural numbers, per-axis sizes are
functions `Nat → Nat`, and JavaScript `Math.max(0, a - b)` is modelled by
truncated natural subtraction `a - b`.  Functions that live in the
`helpers.ts` module (which is imported by `Grid.tsx` but is not part of the
source tree) are modelled from the specification; each such definition
carries a doc comment starting with `Modelled from the spec:`.
-/

/-- Scroll directions, from `types.ts` (used by `Grid.tsx` as
`Direction.Up/Down/Left/Right`). -/
inductive Direction where
| Up
| Down
| Left
| Right
deriving DecidableEq, Repr

/-- Alignment modes for scroll-to-cell, from the helpers module
(`Align.start` and so on); `end_` stands for the source's `end`. -/
inductive Align where
| start
| end_
| center
| smart
deriving DecidableEq, Repr

/-- A cell coordinate, `CellInterface` in `Grid.tsx`. -/
structure CellInterface where
  rowIndex : Nat
  columnIndex : Nat
deriving DecidableEq, Repr

/-- Inclusive bounds of a rectangular cell area, `AreaProps` in `Grid.tsx`. -/
structure AreaProps where
  top : Nat
  left : Nat
  right : Nat
  bottom : Nat
deriving DecidableEq, Repr

/-- Cumulative pixel offset: `sumSizes size i` is the sum of the sizes of
items `0 .. i-1`, the pixel position of the leading edge of item `i`. -/
def sumSizes (size : Nat → Nat) : Nat → Nat
| 0 => 0
| n + 1 => sumSizes size n + size n

/-- Modelled from the spec: `cellIdentifier` lives in `helpers.ts`, which is
not under `src/`.  Per the data model (spec section 3) it forms the composite
key `(rowIndex, columnIndex)` of the Merged Index; we model it as the pair
itself. -/
def cellIdentifier (rowIndex columnIndex : Nat) : Nat × Nat :=
  (rowIndex, columnIndex)

/-- Modelled from the spec: `getBoundedCells` lives in `helpers.ts`, which is
not under `src/`.  Per spec section 4.4 (`buildIndex`) it enumerates every
`(row, col)` pair inside a region's inclusive bounds. -/
def getBoundedCells (bounds : AreaProps) : List (Nat × Nat) :=
  (List.range (bounds.bottom + 1 - bounds.top)).flatMap fun i =>
    (List.range (bounds.right + 1 - bounds.left)).map fun j =>
      (bounds.top + i, bounds.left + j)

theorem mem_getBoundedCells {bounds : AreaProps} {r c : Nat} :
    (r, c) ∈ getBoundedCells bounds ↔
      bounds.top ≤ r ∧ r ≤ bounds.bottom ∧ bounds.left ≤ c ∧ c ≤ bounds.right := by
  simp only [getBoundedCells, List.mem_flatMap, List.mem_map, List.mem_range]
  constructor
  · rintro ⟨i, hi, j, hj, h⟩
    obtain ⟨hr, hc⟩ := Prod.mk.injEq .. ▸ h
    omega
  · rintro ⟨h1, h2, h3, h4⟩
    exact ⟨r - bounds.top, by omega, c - bounds.left, by omega, by
      simp only [Prod.mk.injEq]; omega⟩

/-- One step of the merged-cell map construction in `Grid.tsx` (lines
606-616): the inner `for (const cell of getBoundedCells(bounds))` loop,
which overwrites the map entry of every bounded cell with the region. -/
def insertRegion (m : Nat × Nat → Option AreaProps) (bounds : AreaProps) :
    Nat × Nat → Option AreaProps :=
  (getBoundedCells bounds).foldl
    (fun m cell => fun k => if k = cell then some bounds else m k) m

/-- The merged-cell map from `Grid.tsx` (lines 606-616): iterate the merged
regions in order and insert every bounded cell, later regions overwriting
earlier entries, starting from the empty map. -/
def mergedCellMap (mergedCells : List AreaProps) : Nat × Nat → Option AreaProps :=
  mergedCells.foldl insertRegion (fun _ => none)

theorem insertCells_lookup (b : AreaProps) (cells : List (Nat × Nat)) :
    ∀ (m : Nat × Nat → Option AreaProps) (k : Nat × Nat),
      (cells.foldl (fun m cell => fun k => if k = cell then some b else m k) m) k
        = if k ∈ cells then some b else m k := by
  induction cells with
  | nil => intro m k; simp
  | cons c cs ih =>
      intro m k
      simp only [List.foldl_cons]
      rw [ih]
      by_cases h1 : k ∈ cs
      · simp [h1]
      · by_cases h2 : k = c <;> simp [h1, h2]

theorem insertRegion_lookup (m : Nat × Nat → Option AreaProps) (b : AreaProps)
    (k : Nat × Nat) :
    insertRegion m b k = if k ∈ getBoundedCells b then some b else m k :=
  insertCells_lookup b (getBoundedCells b) m k

theorem mergedFold_not_mem (k : Nat × Nat) :
    ∀ (regions : List AreaProps) (m : Nat × Nat → Option AreaProps),
      (∀ b ∈ regions, k ∉ getBoundedCells b) →
      (regions.foldl insertRegion m) k = m k := by
  intro regions
  induction regions with
  | nil => intro m _; rfl
  | cons b rest ih =>
      intro m h
      simp only [List.foldl_cons]
      rw [ih _ (fun b' hb' => h b' (by simp [hb']))]
      rw [insertRegion_lookup]
      simp [h b (by simp)]

theorem mergedFold_eq_some (k : Nat × Nat) (r : AreaProps) :
    ∀ (regions : List AreaProps) (m : Nat × Nat → Option AreaProps),
      (regions.foldl insertRegion m) k = some r →
      (r ∈ regions ∧ k ∈ getBoundedCells r) ∨ m k = some r := by
  intro regions
  induction regions with
  | nil => intro m h; exact Or.inr h
  | cons b rest ih =>
      intro m h
      simp only [List.foldl_cons] at h
      rcases ih _ h with ⟨hmem, hk⟩ | hbase
      · exact Or.inl ⟨by simp [hmem], hk⟩
      · rw [insertRegion_lookup] at hbase
        by_cases hb : k ∈ getBoundedCells b
        · simp only [hb, if_pos] at hbase
          obtain rfl : b = r := by injection hbase
          exact Or.inl ⟨by simp, hb⟩
        · simp only [hb, if_neg, if_false] at hbase
          exact Or.inr hbase

/-- Non-overlap of merged regions, the data-model invariant of spec
section 3: no cell belongs to two regions of the list. -/
def NoOverlap (regions : List AreaProps) : Prop :=
  regions.Pairwise fun a b =>
    ∀ k : Nat × Nat, ¬(k ∈ getBoundedCells a ∧ k ∈ getBoundedCells b)

instance (a b : AreaProps) :
    Decidable (∀ k : Nat × Nat, ¬(k ∈ getBoundedCells a ∧ k ∈ getBoundedCells b)) := by
  refine decidable_of_iff
    (¬(max a.top b.top ≤ min a.bottom b.bottom ∧
       max a.left b.left ≤ min a.right b.right)) ⟨fun h k => ?_, fun h => ?_⟩
  · rintro ⟨hka, hkb⟩
    obtain ⟨r, c⟩ := k
    rw [mem_getBoundedCells] at hka hkb
    exact h ⟨by omega, by omega⟩
  · rintro ⟨h1, h2⟩
    exact h (max a.top b.top, max a.left b.left)
      ⟨mem_getBoundedCells.mpr (by omega), mem_getBoundedCells.mpr (by omega)⟩

instance (regions : List AreaProps) : Decidable (NoOverlap regions) := by
  unfold NoOverlap
  infer_instance

theorem mergedCellMap_eq_some {regions : List AreaProps} {k : Nat × Nat}
    {r : AreaProps} (h : mergedCellMap regions k = some r) :
    r ∈ regions ∧ k ∈ getBoundedCells r := by
  rcases mergedFold_eq_some k r regions _ h with h' | h'
  · exact h'
  · cases h'

theorem mergedFold_of_mem (k : Nat × Nat) (r : AreaProps) :
    ∀ (regions : List AreaProps) (m : Nat × Nat → Option AreaProps),
      NoOverlap regions → r ∈ regions → k ∈ getBoundedCells r →
      (regions.foldl insertRegion m) k = some r := by
  intro regions
  induction regions with
  | nil => intro m _ hr _; cases hr
  | cons b rest ih =>
      intro m hno hr hk
      rcases List.mem_cons.mp hr with rfl | hmem
      · simp only [List.foldl_cons]
        rw [mergedFold_not_mem]
        · rw [insertRegion_lookup]
          simp [hk]
        · intro b' hb' hk'
          exact (List.pairwise_cons.mp hno).1 b' hb' k ⟨hk, hk'⟩
      · simp only [List.foldl_cons]
        exact ih _ (List.pairwise_cons.mp hno).2 hmem hk

theorem mergedCellMap_of_mem {regions : List AreaProps} {k : Nat × Nat}
    {r : AreaProps} (hno : NoOverlap regions) (hr : r ∈ regions)
    (hk : k ∈ getBoundedCells r) : mergedCellMap regions k = some r :=
  mergedFold_of_mem k r regions _ hno hr hk

theorem anchor_mem_getBoundedCells {b : AreaProps} {k : Nat × Nat}
    (h : k ∈ getBoundedCells b) : (b.top, b.left) ∈ getBoundedCells b := by
  obtain ⟨r, c⟩ := k
  rw [mem_getBoundedCells] at h
  exact mem_getBoundedCells.mpr (by omega)

/-- Membership test on the merged map, `isMergedCell` in `Grid.tsx`
(lines 619-624). -/
def isMergedCell (regions : List AreaProps) (cell : CellInterface) : Bool :=
  (mergedCellMap regions (cellIdentifier cell.rowIndex cell.columnIndex)).isSome

/-- Bounds of a cell, `getCellBounds` in `Grid.tsx` (lines 627-642): the
owning merged region if the cell is merged, else the degenerate one-cell
region. -/
def getCellBounds (regions : List AreaProps) (cell : CellInterface) : AreaProps :=
  match mergedCellMap regions (cellIdentifier cell.rowIndex cell.columnIndex) with
  | some bounds => bounds
  | none =>
      { top := cell.rowIndex, left := cell.columnIndex,
        right := cell.columnIndex, bottom := cell.rowIndex }

/-- Canonical coordinates of a cell, `getActualCellCoords` in `Grid.tsx`
(lines 645-663): the top-left anchor of the owning merged region if the
cell is merged, else the cell itself. -/
def getActualCellCoords (regions : List AreaProps) (cell : CellInterface) :
    CellInterface :=
  match mergedCellMap regions (cellIdentifier cell.rowIndex cell.columnIndex) with
  | some bounds => ⟨bounds.top, bounds.left⟩
  | none => cell

theorem getCellBounds_anchor_fixed {regions : List AreaProps}
    (hno : NoOverlap regions) (cell : CellInterface) :
    getActualCellCoords regions
        ⟨(getCellBounds regions cell).top, (getCellBounds regions cell).left⟩
      = ⟨(getCellBounds regions cell).top, (getCellBounds regions cell).left⟩ := by
  unfold getCellBounds getActualCellCoords
  rcases hmap : mergedCellMap regions
      (cellIdentifier cell.rowIndex cell.columnIndex) with _ | b
  · simp only [cellIdentifier]
    rw [show mergedCellMap regions (cell.rowIndex, cell.columnIndex) = none from hmap]
  · obtain ⟨hr, hk⟩ := mergedCellMap_eq_some hmap
    simp only [cellIdentifier]
    rw [mergedCellMap_of_mem hno hr (anchor_mem_getBoundedCells hk)]

/-- Modelled from the spec: `getRowOffset` / `getColumnOffset` live in
`helpers.ts`, which is not under `src/`.  Spec section 4.1 (`getOffset`):
the cumulative pixel offset of the item's leading edge; the memoizing cache
of the Size Metadata Store returns these same values, so we model the
mathematical result directly (scale factor taken as 1). -/
def getItemOffset (size : Nat → Nat) (index : Nat) : Nat :=
  sumSizes size index

/-- Modelled from the spec: `getRowHeight` / `getColumnWidth` live in
`helpers.ts`, which is not under `src/`.  Spec section 4.1 (`getSize`): the
item's size. -/
def getItemSize (size : Nat → Nat) (index : Nat) : Nat :=
  size index

/-- Modelled from the spec: `getRowStartIndexForOffset` /
`getColumnStartIndexForOffset` live in `helpers.ts`, which is not under
`src/`.  Spec section 4.2 (`indexForOffset`): the smallest index whose
pixel interval contains the offset, clamped into `[0, count-1]`; returns 0
when `count = 0`. -/
def indexForOffset (size : Nat → Nat) (count : Nat) (offset : Nat) : Nat :=
  ((List.range count).find? fun i =>
    decide (offset < sumSizes size (i + 1))).getD (count - 1)

/-- Modelled from the spec: `getRowStopIndexForStartIndex` /
`getColumnStopIndexForStartIndex` live in `helpers.ts`, which is not under
`src/`.  Spec section 4.2 (`stopIndexForStart`): walk forward from the
start index until an item's trailing edge reaches or passes the end of the
container's visible extent, clamped into `[0, count-1]`; returns 0 when
`count = 0`. -/
def stopIndexForStart (size : Nat → Nat) (count startIndex scrollOffset containerExtent : Nat) :
    Nat :=
  (((List.range count).filter fun j => decide (startIndex ≤ j)).find? fun j =>
    decide (scrollOffset + containerExtent ≤ sumSizes size (j + 1))).getD (count - 1)

theorem indexForOffset_le (size : Nat → Nat) (count offset : Nat) :
    indexForOffset size count offset ≤ count - 1 := by
  unfold indexForOffset
  rcases h : (List.range count).find? (fun i => decide (offset < sumSizes size (i + 1)))
    with _ | i
  · simp
  · have : i ∈ List.range count := List.mem_of_find?_eq_some h
    rw [List.mem_range] at this
    simp only [Option.getD_some]
    omega

theorem stopIndexForStart_bounds (size : Nat → Nat)
    (count startIndex scrollOffset containerExtent : Nat)
    (hstart : startIndex ≤ count - 1) :
    startIndex ≤ stopIndexForStart size count startIndex scrollOffset containerExtent ∧
      stopIndexForStart size count startIndex scrollOffset containerExtent ≤ count - 1 := by
  unfold stopIndexForStart
  rcases h : ((List.range count).filter fun j => decide (startIndex ≤ j)).find?
      (fun j => decide (scrollOffset + containerExtent ≤ sumSizes size (j + 1)))
    with _ | j
  · simp [hstart]
  · have hmem : j ∈ (List.range count).filter fun j => decide (startIndex ≤ j) :=
      List.mem_of_find?_eq_some h
    rw [List.mem_filter, List.mem_range] at hmem
    obtain ⟨hlt, hge⟩ := hmem
    rw [decide_eq_true_eq] at hge
    simp only [Option.getD_some]
    omega

/-- Backward (upward) overscan of the vertical axis, from
`getVerticalRangeToRender` in `Grid.tsx` (lines 688-691). -/
def overscanBackwardV (isScrolling : Bool) (verticalScrollDirection : Direction)
    (overscanCount : Nat) : Nat :=
  if !isScrolling || verticalScrollDirection = Direction.Up
  then max 1 overscanCount else 1

/-- Forward (downward) overscan of the vertical axis, from
`getVerticalRangeToRender` in `Grid.tsx` (lines 692-695). -/
def overscanForwardV (isScrolling : Bool) (verticalScrollDirection : Direction)
    (overscanCount : Nat) : Nat :=
  if !isScrolling || verticalScrollDirection = Direction.Down
  then max 1 overscanCount else 1

/-- Backward (leftward) overscan of the horizontal axis, from
`getHorizontalRangeToRender` in `Grid.tsx` (lines 729-732). -/
def overscanBackwardH (isScrolling : Bool) (horizontalScrollDirection : Direction)
    (overscanCount : Nat) : Nat :=
  if !isScrolling || horizontalScrollDirection = Direction.Left
  then max 1 overscanCount else 1

/-- Forward (rightward) overscan of the horizontal axis, from
`getHorizontalRangeToRender` in `Grid.tsx` (lines 733-736). -/
def overscanForwardH (isScrolling : Bool) (horizontalScrollDirection : Direction)
    (overscanCount : Nat) : Nat :=
  if !isScrolling || horizontalScrollDirection = Direction.Right
  then max 1 overscanCount else 1

/-- The four indices returned by the range calculators (the source returns
the array `[overscannedStart, overscannedStop, preciseStart, preciseStop]`). -/
structure RenderRange where
  overscanStart : Nat
  overscanStop : Nat
  startIndex : Nat
  stopIndex : Nat
deriving DecidableEq, Repr

/-- Vertical viewport range, `getVerticalRangeToRender` in `Grid.tsx`
(lines 665-703).  JavaScript `Math.max(0, startIndex - overscanBackward)`
is truncated natural subtraction here, and when `rowCount = 0` the
JavaScript value `Math.max(0, Math.min(rowCount - 1, _))` is 0, which
equals the truncated form below. -/
def getVerticalRangeToRender (rowHeight : Nat → Nat)
    (rowCount scrollTop containerHeight : Nat) (isScrolling : Bool)
    (verticalScrollDirection : Direction) (overscanCount : Nat) : RenderRange :=
  let startIndex := indexForOffset rowHeight rowCount scrollTop
  let stopIndex := stopIndexForStart rowHeight rowCount startIndex scrollTop containerHeight
  let overscanBackward := overscanBackwardV isScrolling verticalScrollDirection overscanCount
  let overscanForward := overscanForwardV isScrolling verticalScrollDirection overscanCount
  { overscanStart := startIndex - overscanBackward,
    overscanStop := min (rowCount - 1) (stopIndex + overscanForward),
    startIndex := startIndex,
    stopIndex := stopIndex }

/-- Horizontal viewport range, `getHorizontalRangeToRender` in `Grid.tsx`
(lines 705-744), with the same subtraction conventions as the vertical
variant. -/
def getHorizontalRangeToRender (columnWidth : Nat → Nat)
    (columnCount scrollLeft containerWidth : Nat) (isScrolling : Bool)
    (horizontalScrollDirection : Direction) (overscanCount : Nat) : RenderRange :=
  let startIndex := indexForOffset columnWidth columnCount scrollLeft
  let stopIndex := stopIndexForStart columnWidth columnCount startIndex scrollLeft containerWidth
  let overscanBackward := overscanBackwardH isScrolling horizontalScrollDirection overscanCount
  let overscanForward := overscanForwardH isScrolling horizontalScrollDirection overscanCount
  { overscanStart := startIndex - overscanBackward,
    overscanStop := min (columnCount - 1) (stopIndex + overscanForward),
    startIndex := startIndex,
    stopIndex := stopIndex }

/-- Current scroll position, the `scrollLeft`/`scrollTop` part of the
scroll state in `Grid.tsx`. -/
structure ScrollCoords where
  scrollLeft : Nat
  scrollTop : Nat
deriving DecidableEq, Repr

/-- State update performed by `scrollTo` in `Grid.tsx` (lines 1089-1108):
an axis whose coordinate is `undefined` keeps its previous value. -/
def scrollTo (prev : ScrollCoords) (scrollLeft? scrollTop? : Option Nat) : ScrollCoords :=
  { scrollLeft := scrollLeft?.getD prev.scrollLeft,
    scrollTop := scrollTop?.getD prev.scrollTop }

/-- The `isFrozenRow` test of `scrollToItem` in `Grid.tsx` (line 1144):
`rowIndex && rowIndex < frozenRows`.  JavaScript truthiness makes both an
omitted `rowIndex` and the value 0 falsy, so the whole expression is falsy
in those cases. -/
def isFrozenRow (rowIndex? : Option Nat) (frozenRows : Nat) : Bool :=
  match rowIndex? with
  | none => false
  | some rowIndex => decide (rowIndex ≠ 0) && decide (rowIndex < frozenRows)

/-- The `isFrozenColumn` test of `scrollToItem` in `Grid.tsx` (line 1145),
with the same truthiness behaviour as `isFrozenRow`. -/
def isFrozenColumn (columnIndex? : Option Nat) (frozenColumns : Nat) : Bool :=
  match columnIndex? with
  | none => false
  | some columnIndex => decide (columnIndex ≠ 0) && decide (columnIndex < frozenColumns)

/-- The `width` computed by `scrollToItem` in `Grid.tsx` (lines 1173-1175):
`columnIndex ? getColumnWidth(columnIndex, …) : 0`, so an omitted index and
index 0 both give width 0. -/
def scrollToItemWidth (columnWidth : Nat → Nat) (columnIndex? : Option Nat) : Nat :=
  match columnIndex? with
  | none => 0
  | some 0 => 0
  | some columnIndex => getItemSize columnWidth columnIndex

/-- The `height` computed by `scrollToItem` in `Grid.tsx` (lines 1176-1178),
symmetric to `scrollToItemWidth`. -/
def scrollToItemHeight (rowHeight : Nat → Nat) (rowIndex? : Option Nat) : Nat :=
  match rowIndex? with
  | none => 0
  | some 0 => 0
  | some rowIndex => getItemSize rowHeight rowIndex

/-- The `columnAlign` selection of `scrollToItem` in `Grid.tsx` (line 1179):
degrade to `start` when the computed width exceeds the container width. -/
def scrollToItemColumnAlign (columnWidth : Nat → Nat) (columnIndex? : Option Nat)
    (containerWidth : Nat) (align : Align) : Align :=
  if scrollToItemWidth columnWidth columnIndex? > containerWidth
  then Align.start else align

/-- The `rowAlign` selection of `scrollToItem` in `Grid.tsx` (line 1180). -/
def scrollToItemRowAlign (rowHeight : Nat → Nat) (rowIndex? : Option Nat)
    (containerHeight : Nat) (align : Align) : Align :=
  if scrollToItemHeight rowHeight rowIndex? > containerHeight
  then Align.start else align

/-- Modelled from the spec: `getOffsetForColumnAndAlignment` /
`getOffsetForRowAndAlignment` live in `helpers.ts`, which is not under
`src/`.  Spec section 4.5 (`planScroll`): `start` puts the target's leading
edge at the viewport's leading edge after the frozen region, `end` puts the
trailing edge at the viewport's trailing edge, `center` centers the target,
and `smart` is a no-op when the target is already fully visible, else acts
as `start` when the target is before the viewport and as `end` when after.
Results clamp at 0 (spec section 8 scenario), which truncated natural
subtraction provides. -/
def getOffsetForAlignment (size : Nat → Nat)
    (index scrollOffset containerExtent frozenOffset : Nat) (align : Align) : Nat :=
  let offset := sumSizes size index
  let itemSize := size index
  match align with
  | Align.start => offset - frozenOffset
  | Align.end_ => offset + itemSize - containerExtent
  | Align.center => offset + itemSize / 2 - containerExtent / 2
  | Align.smart =>
      if scrollOffset + frozenOffset ≤ offset ∧
          offset + itemSize ≤ scrollOffset + containerExtent
      then scrollOffset
      else if offset < scrollOffset + frozenOffset
      then offset - frozenOffset
      else offset + itemSize - containerExtent

/-- The `isOutsideViewport` test of `scrollToItem` in `Grid.tsx`
(lines 1230-1235): the target index exceeds the rendered window's stop
index by more than the window's span on that axis. -/
def isOutsideViewport (rowIndex? columnIndex? : Option Nat)
    (rowStartIndex rowStopIndex columnStartIndex columnStopIndex : Nat) : Bool :=
  (match rowIndex? with
   | some rowIndex => decide (rowIndex > rowStopIndex + (rowStopIndex - rowStartIndex))
   | none => false) ||
  (match columnIndex? with
   | some columnIndex =>
       decide (columnIndex > columnStopIndex + (columnStopIndex - columnStartIndex))
   | none => false)

/-- The grid parameters captured by the `scrollToItem` closure in
`Grid.tsx` (props, scroll state and the current rendered window). -/
structure GridCtx where
  rowHeight : Nat → Nat
  columnWidth : Nat → Nat
  frozenRows : Nat
  frozenColumns : Nat
  containerWidth : Nat
  containerHeight : Nat
  scrollLeft : Nat
  scrollTop : Nat
  rowStartIndex : Nat
  rowStopIndex : Nat
  columnStartIndex : Nat
  columnStopIndex : Nat

/-- Result of a `scrollToItem` call: the per-axis offset requests
(`undefined` keeps the axis untouched when fed to `scrollTo`) and whether
applying them is deferred to the next animation frame. -/
structure ScrollToItemResult where
  scrollLeft : Option Nat
  scrollTop : Option Nat
  deferred : Bool
deriving DecidableEq, Repr

/-- Embedding of `scrollToItem` in `Grid.tsx` (lines 1139-1255).  The
offset for a non-suppressed axis comes from the spec-modelled
`getOffsetForAlignment`; the suppression tests, the degraded alignment
modes and the defer decision are transcribed from the source. -/
def scrollToItem (ctx : GridCtx) (rowIndex? columnIndex? : Option Nat)
    (align : Align) : ScrollToItemResult :=
  let frozenColumnOffset := getItemOffset ctx.columnWidth ctx.frozenColumns
  let columnAlign := scrollToItemColumnAlign ctx.columnWidth columnIndex? ctx.containerWidth align
  let rowAlign := scrollToItemRowAlign ctx.rowHeight rowIndex? ctx.containerHeight align
  let newScrollLeft :=
    match columnIndex? with
    | some columnIndex =>
        if isFrozenColumn columnIndex? ctx.frozenColumns then none
        else some (getOffsetForAlignment ctx.columnWidth columnIndex
          ctx.scrollLeft ctx.containerWidth frozenColumnOffset columnAlign)
    | none => none
  let frozenRowOffset := getItemOffset ctx.rowHeight ctx.frozenRows
  let newScrollTop :=
    match rowIndex? with
    | some rowIndex =>
        if isFrozenRow rowIndex? ctx.frozenRows then none
        else some (getOffsetForAlignment ctx.rowHeight rowIndex
          ctx.scrollTop ctx.containerHeight frozenRowOffset rowAlign)
    | none => none
  { scrollLeft := newScrollLeft,
    scrollTop := newScrollTop,
    deferred := isOutsideViewport rowIndex? columnIndex?
      ctx.rowStartIndex ctx.rowStopIndex ctx.columnStartIndex ctx.columnStopIndex }

/-- The part of the instance state touched by `resetAfterIndices`
(`InstanceInterface` in `Grid.tsx`; the size-metadata maps and estimated
sizes are neither read nor written by the embedded operation and are
omitted). -/
structure InstanceInterface where
  lastMeasuredColumnIndex : Int
  lastMeasuredRowIndex : Int
  recalcColumnIndices : List Nat
  recalcRowIndices : List Nat
deriving DecidableEq, Repr

/-- Embedding of `resetAfterIndices` in `Grid.tsx` (lines 578-600): for each
axis whose index is supplied, clear that axis's recalc list and lower its
last-measured index to `min(previous, index - 1)`.  The `shouldForceUpdate`
re-render flag does not touch this state and is omitted. -/
def resetAfterIndices (columnIndex? rowIndex? : Option Nat)
    (inst : InstanceInterface) : InstanceInterface :=
  let inst1 :=
    match columnIndex? with
    | some columnIndex =>
        { inst with
          recalcColumnIndices := [],
          lastMeasuredColumnIndex :=
            min inst.lastMeasuredColumnIndex ((columnIndex : Int) - 1) }
    | none => inst
  match rowIndex? with
  | some rowIndex =>
      { inst1 with
        recalcRowIndices := [],
        lastMeasuredRowIndex :=
          min inst1.lastMeasuredRowIndex ((rowIndex : Int) - 1) }
  | none => inst1

/-- The `isWithinFrozenRowBoundary` test in `Grid.tsx` (lines 849-854). -/
def isWithinFrozenRowBoundary (frozenRows frozenRowHeight y : Nat) : Bool :=
  decide (frozenRows > 0) && decide (y < frozenRowHeight)

/-- The `isWithinFrozenColumnBoundary` test in `Grid.tsx` (lines 841-846). -/
def isWithinFrozenColumnBoundary (frozenColumns frozenColumnWidth x : Nat) : Bool :=
  decide (frozenColumns > 0) && decide (x < frozenColumnWidth)

/-- Embedding of `getCellCoordsFromOffset` in `Grid.tsx` (lines 886-923):
resolve the pixel position to a row and a column (frozen panes use the raw
position, scrollable cells add the scroll offset), then return the top-left
of the resolved cell's bounds.  The `null` result of the source occurs only
when the backing DOM stage is absent and is outside the geometry model. -/
def getCellCoordsFromOffset (rowHeight columnWidth : Nat → Nat)
    (rowCount columnCount frozenRows frozenColumns scrollTop scrollLeft : Nat)
    (regions : List AreaProps) (x y : Nat) : CellInterface :=
  let frozenRowHeight := getItemOffset rowHeight frozenRows
  let frozenColumnWidth := getItemOffset columnWidth frozenColumns
  let rowIndex := indexForOffset rowHeight rowCount
    (if isWithinFrozenRowBoundary frozenRows frozenRowHeight y then y else y + scrollTop)
  let columnIndex := indexForOffset columnWidth columnCount
    (if isWithinFrozenColumnBoundary frozenColumns frozenColumnWidth x then x
     else x + scrollLeft)
  let bounds := getCellBounds regions ⟨rowIndex, columnIndex⟩
  ⟨bounds.top, bounds.left⟩

/-- Inclusive index interval `a .. b` as a list, the probe order of a
JavaScript `for (let i = a; i <= b; i++)` loop (empty when `a > b`). -/
def rangeIncl (a b : Nat) : List Nat :=
  (List.range (b + 1 - a)).map (a + ·)

/-- Grid parameters read by the cell-rendering walks in `Grid.tsx`. -/
structure RenderParams where
  rowCount : Nat
  columnCount : Nat
  frozenRows : Nat
  frozenColumns : Nat
  rowStartIndex : Nat
  rowStopIndex : Nat
  columnStartIndex : Nat
  columnStopIndex : Nat
  isHiddenRow : Nat → Bool

/-- Cells enumerated by the main cell walk in `Grid.tsx` (lines 1517-1627):
rows `rowStartIndex..rowStopIndex` skipping frozen and hidden rows, columns
`columnStartIndex..columnStopIndex` skipping frozen columns, guarded by
`columnCount > 0 && rowCount`. -/
def mainWalk (p : RenderParams) : List CellInterface :=
  if p.columnCount > 0 && p.rowCount > 0 then
    (rangeIncl p.rowStartIndex p.rowStopIndex).flatMap fun rowIndex =>
      if rowIndex < p.frozenRows || p.isHiddenRow rowIndex then []
      else
        (rangeIncl p.columnStartIndex p.columnStopIndex).filterMap fun columnIndex =>
          if columnIndex < p.frozenColumns then none
          else some ⟨rowIndex, columnIndex⟩
  else []

/-- Cells enumerated by the frozen-row walk in `Grid.tsx` (lines 1680-1787):
rows `0 .. min(rowStopIndex, frozenRows) - 1` skipping hidden rows, columns
`columnStartIndex..columnStopIndex` skipping frozen columns. -/
def frozenRowWalk (p : RenderParams) : List CellInterface :=
  (List.range (min p.rowStopIndex p.frozenRows)).flatMap fun rowIndex =>
    if p.isHiddenRow rowIndex then []
    else
      (rangeIncl p.columnStartIndex p.columnStopIndex).filterMap fun columnIndex =>
        if columnIndex < p.frozenColumns then none
        else some ⟨rowIndex, columnIndex⟩

/-- Cells enumerated by the frozen-column walk in `Grid.tsx`
(lines 1792-1892): rows `rowStartIndex..rowStopIndex` skipping frozen and
hidden rows, columns `0 .. min(columnStopIndex, frozenColumns) - 1`. -/
def frozenColumnWalk (p : RenderParams) : List CellInterface :=
  (rangeIncl p.rowStartIndex p.rowStopIndex).flatMap fun rowIndex =>
    if rowIndex < p.frozenRows || p.isHiddenRow rowIndex then []
    else
      (List.range (min p.columnStopIndex p.frozenColumns)).map fun columnIndex =>
        ⟨rowIndex, columnIndex⟩

/-- Cells enumerated by the frozen-intersection walk in `Grid.tsx`
(lines 1977-2050): rows `0 .. min(rowStopIndex, frozenRows) - 1` skipping
hidden rows, columns `0 .. min(columnStopIndex, frozenColumns) - 1`. -/
def frozenIntersectionWalk (p : RenderParams) : List CellInterface :=
  (List.range (min p.rowStopIndex p.frozenRows)).flatMap fun rowIndex =>
    if p.isHiddenRow rowIndex then []
    else
      (List.range (min p.columnStopIndex p.frozenColumns)).map fun columnIndex =>
        ⟨rowIndex, columnIndex⟩

/-- All cells enumerated during one render pass, in source order: the main
walk, then the frozen-row, frozen-column and frozen-intersection walks, all
sharing one `mergedCellRenderMap`. -/
def gridPassProbes (p : RenderParams) : List CellInterface :=
  mainWalk p ++ frozenRowWalk p ++ frozenColumnWalk p ++ frozenIntersectionWalk p

/-- Merged-cell handling of each walk iteration in `Grid.tsx`
(lines 1542-1554 and the copies in the frozen walks): when the cell is
merged, skip it if the region's anchor is already in `mergedCellRenderMap`,
else record the anchor and invoke the renderer.  The accumulator is the
pair of the mutable `mergedCellRenderMap` (as a list) and the list of
merged-region anchors passed to `itemRenderer` so far, in order. -/
def processCell (regions : List AreaProps)
    (acc : List (Nat × Nat) × List (Nat × Nat)) (cell : CellInterface) :
    List (Nat × Nat) × List (Nat × Nat) :=
  match mergedCellMap regions (cellIdentifier cell.rowIndex cell.columnIndex) with
  | some bounds =>
      let cellId := cellIdentifier bounds.top bounds.left
      if cellId ∈ acc.1 then acc
      else (cellId :: acc.1, acc.2 ++ [cellId])
  | none => acc

/-- The merged-region renders of one render pass: fold the dedup step over
the probes, starting from a `mergedCellRenderMap` created fresh (empty) at
the start of the pass (`Grid.tsx` line 1510); returns the anchors handed to
`itemRenderer`, in order. -/
def renderPass (regions : List AreaProps) (probes : List CellInterface) :
    List (Nat × Nat) :=
  (probes.foldl (processCell regions) ([], [])).2

theorem processCell_fold_inv (regions : List AreaProps) (probes : List CellInterface) :
    ∀ acc : List (Nat × Nat) × List (Nat × Nat),
      acc.2.Nodup → (∀ a, a ∈ acc.2 ↔ a ∈ acc.1) →
      (probes.foldl (processCell regions) acc).2.Nodup ∧
        (∀ a, a ∈ (probes.foldl (processCell regions) acc).2 ↔
          a ∈ (probes.foldl (processCell regions) acc).1) := by
  induction probes with
  | nil => intro acc h1 h2; exact ⟨h1, h2⟩
  | cons cell rest ih =>
      intro acc h1 h2
      simp only [List.foldl_cons]
      apply ih
      · unfold processCell
        rcases mergedCellMap regions (cellIdentifier cell.rowIndex cell.columnIndex)
          with _ | bounds
        · exact h1
        · simp only
          split
          · exact h1
          · rename_i hnot
            rw [List.nodup_append]
            exact ⟨h1, List.nodup_singleton _, by
              intro a ha hb
              rw [List.mem_singleton] at hb
              subst hb
              exact hnot ((h2 _).mp ha)⟩
      · unfold processCell
        rcases mergedCellMap regions (cellIdentifier cell.rowIndex cell.columnIndex)
          with _ | bounds
        · exact h2
        · simp only
          split
          · exact h2
          · intro a
            rw [List.mem_append, List.mem_singleton, List.mem_cons]
            constructor
            · rintro (ha | rfl)
              · exact Or.inr ((h2 a).mp ha)
              · exact Or.inl rfl
            · rintro (rfl | ha)
              · exact Or.inr rfl
              · exact Or.inl ((h2 a).mpr ha)

theorem processCell_fold_mono (regions : List AreaProps) (probes : List CellInterface) :
    ∀ (acc : List (Nat × Nat) × List (Nat × Nat)) (a : Nat × Nat),
      a ∈ acc.1 → a ∈ (probes.foldl (processCell regions) acc).1 := by
  induction probes with
  | nil => intro acc a h; exact h
  | cons cell rest ih =>
      intro acc a h
      simp only [List.foldl_cons]
      apply ih
      unfold processCell
      rcases mergedCellMap regions (cellIdentifier cell.rowIndex cell.columnIndex)
        with _ | bounds
      · exact h
      · simp only
        split
        · exact h
        · exact List.mem_cons_of_mem _ h

theorem processCell_fold_hit (regions : List AreaProps) (probes : List CellInterface) :
    ∀ (acc : List (Nat × Nat) × List (Nat × Nat)) (cell : CellInterface)
      (bounds : AreaProps),
      cell ∈ probes →
      mergedCellMap regions (cellIdentifier cell.rowIndex cell.columnIndex) = some bounds →
      cellIdentifier bounds.top bounds.left ∈ (probes.foldl (processCell regions) acc).1 := by
  induction probes with
  | nil => intro acc cell bounds h _; cases h
  | cons c rest ih =>
      intro acc cell bounds hmem hmap
      simp only [List.foldl_cons]
      rcases List.mem_cons.mp hmem with rfl | hmem'
      · apply processCell_fold_mono
        unfold processCell
        rw [hmap]
        simp only
        split
        · assumption
        · exact List.mem_cons_self _ _
      · exact ih _ cell bounds hmem' hmap

/-- Debounce interval, `RESET_SCROLL_EVENTS_DEBOUNCE_INTERVAL` in `Grid.tsx`
(line 416). -/
def RESET_SCROLL_EVENTS_DEBOUNCE_INTERVAL : Nat := 150

/-- State of the scrolling debounce: the scheduled clear time of the
pending timer (`resetIsScrollingTimeoutID`), the `isScrolling` flag, and
the times at which the flag was cleared so far. -/
structure DebounceState where
  pending : Option Nat
  isScrolling : Bool
  clears : List Nat
deriving DecidableEq, Repr

/-- Modelled from the spec: `requestTimeout` / `cancelTimeout` live in
`helpers.ts`, which is not under `src/`; spec section 5 describes them as a
cancellable deferred callback with a fixed delay.  `fireDue` runs a pending
timer that is due at or before time `t` — the body of `resetIsScrolling` in
`Grid.tsx` (lines 1034-1043): null the timer id, clear `isScrolling`. -/
def fireDue (s : DebounceState) (t : Nat) : DebounceState :=
  match s.pending with
  | some fireTime =>
      if fireTime ≤ t
      then { pending := none, isScrolling := false, clears := s.clears ++ [fireTime] }
      else s
  | none => s

/-- A scroll event at time `t`: `handleScroll` in `Grid.tsx` (lines
1046-1065) sets `isScrolling` true, and `resetIsScrollingDebounced`
(lines 1024-1032) cancels any pending timer and schedules the clear at
`t + RESET_SCROLL_EVENTS_DEBOUNCE_INTERVAL`. -/
def scrollEvent (s : DebounceState) (t : Nat) : DebounceState :=
  { pending := some (t + RESET_SCROLL_EVENTS_DEBOUNCE_INTERVAL),
    isScrolling := true,
    clears := s.clears }

/-- Run any timer still pending once the burst is over. -/
def flushTimer (s : DebounceState) : DebounceState :=
  match s.pending with
  | some fireTime =>
      { pending := none, isScrolling := false, clears := s.clears ++ [fireTime] }
  | none => s

/-- Process a burst: at each event time, first run a timer that came due,
then apply the scroll event; afterwards let the remaining timer fire. -/
def runBurst (events : List Nat) : DebounceState :=
  flushTimer (events.foldl (fun s t => scrollEvent (fireDue s t) t)
    { pending := none, isScrolling := false, clears := [] })

theorem runBurst_aux (es : List Nat) :
    ∀ (prev : Nat) (c : List Nat),
      List.Chain (fun a b => a < b ∧ b < a + RESET_SCROLL_EVENTS_DEBOUNCE_INTERVAL) prev es →
      es.foldl (fun s t => scrollEvent (fireDue s t) t)
          { pending := some (prev + RESET_SCROLL_EVENTS_DEBOUNCE_INTERVAL),
            isScrolling := true, clears := c }
        = { pending := some ((es.getLast?.getD prev) + RESET_SCROLL_EVENTS_DEBOUNCE_INTERVAL),
            isScrolling := true, clears := c } := by
  induction es with
  | nil => intro prev c _; rfl
  | cons t ts ih =>
      intro prev c hchain
      rcases List.chain_cons.mp hchain with ⟨⟨h1, h2⟩, hchain'⟩
      simp only [List.foldl_cons]
      have hfire : fireDue
          { pending := some (prev + RESET_SCROLL_EVENTS_DEBOUNCE_INTERVAL),
            isScrolling := true, clears := c } t
          = { pending := some (prev + RESET_SCROLL_EVENTS_DEBOUNCE_INTERVAL),
              isScrolling := true, clears := c } := by
        unfold fireDue
        simp only
        rw [if_neg (by omega)]
      rw [hfire]
      have hstep : scrollEvent
          { pending := some (prev + RESET_SCROLL_EVENTS_DEBOUNCE_INTERVAL),
            isScrolling := true, clears := c } t
          = { pending := some (t + RESET_SCROLL_EVENTS_DEBOUNCE_INTERVAL),
              isScrolling := true, clears := c } := rfl
      rw [hstep, ih t c hchain']
      rcases ts with _ | ⟨t', ts'⟩
      · rfl
      · rfl

theorem verticalRangeToRender_valid (rowHeight : Nat → Nat)
    (rowCount scrollTop containerHeight overscanCount : Nat)
    (isScrolling : Bool) (vDir : Direction) :
    0 < rowCount →
      (getVerticalRangeToRender rowHeight rowCount scrollTop containerHeight
          isScrolling vDir overscanCount).overscanStart ≤
        (getVerticalRangeToRender rowHeight rowCount scrollTop containerHeight
          isScrolling vDir overscanCount).overscanStop ∧
      (getVerticalRangeToRender rowHeight rowCount scrollTop containerHeight
          isScrolling vDir overscanCount).overscanStop ≤ rowCount - 1 ∧
      (getVerticalRangeToRender rowHeight rowCount scrollTop containerHeight
          isScrolling vDir overscanCount).startIndex ≤
        (getVerticalRangeToRender rowHeight rowCount scrollTop containerHeight
          isScrolling vDir overscanCount).stopIndex ∧
      (getVerticalRangeToRender rowHeight rowCount scrollTop containerHeight
          isScrolling vDir overscanCount).stopIndex ≤ rowCount - 1 := by
  intro _
  have hstart := indexForOffset_le rowHeight rowCount scrollTop
  have hstop := stopIndexForStart_bounds rowHeight rowCount
    (indexForOffset rowHeight rowCount scrollTop) scrollTop containerHeight hstart
  simp only [getVerticalRangeToRender]
  omega

theorem verticalRangeToRender_degenerate (rowHeight : Nat → Nat)
    (scrollTop containerHeight overscanCount : Nat)
    (isScrolling : Bool) (vDir : Direction) :
    getVerticalRangeToRender rowHeight 0 scrollTop containerHeight
        isScrolling vDir overscanCount
      = { overscanStart := 0, overscanStop := 0, startIndex := 0, stopIndex := 0 } := by
  simp [getVerticalRangeToRender, indexForOffset, stopIndexForStart]

theorem horizontalRangeToRender_valid (columnWidth : Nat → Nat)
    (columnCount scrollLeft containerWidth overscanCount : Nat)
    (isScrolling : Bool) (hDir : Direction) :
    0 < columnCount →
      (getHorizontalRangeToRender columnWidth columnCount scrollLeft containerWidth
          isScrolling hDir overscanCount).overscanStart ≤
        (getHorizontalRangeToRender columnWidth columnCount scrollLeft containerWidth
          isScrolling hDir overscanCount).overscanStop ∧
      (getHorizontalRangeToRender columnWidth columnCount scrollLeft containerWidth
          isScrolling hDir overscanCount).overscanStop ≤ columnCount - 1 ∧
      (getHorizontalRangeToRender columnWidth columnCount scrollLeft containerWidth
          isScrolling hDir overscanCount).startIndex ≤
        (getHorizontalRangeToRender columnWidth columnCount scrollLeft containerWidth
          isScrolling hDir overscanCount).stopIndex ∧
      (getHorizontalRangeToRender columnWidth columnCount scrollLeft containerWidth
          isScrolling hDir overscanCount).stopIndex ≤ columnCount - 1 := by
  intro _
  have hstart := indexForOffset_le columnWidth columnCount scrollLeft
  have hstop := stopIndexForStart_bounds columnWidth columnCount
    (indexForOffset columnWidth columnCount scrollLeft) scrollLeft containerWidth hstart
  simp only [getHorizontalRangeToRender]
  omega

theorem horizontalRangeToRender_degenerate (columnWidth : Nat → Nat)
    (scrollLeft containerWidth overscanCount : Nat)
    (isScrolling : Bool) (hDir : Direction) :
    getHorizontalRangeToRender columnWidth 0 scrollLeft containerWidth
        isScrolling hDir overscanCount
      = { overscanStart := 0, overscanStop := 0, startIndex := 0, stopIndex := 0 } := by
  simp [getHorizontalRangeToRender, indexForOffset, stopIndexForStart]

/-- C1: on each axis, whenever the count is positive the range produced by
the Viewport Range Calculator satisfies `overscannedStart ≤ overscannedStop`
with all four indices inside `[0, count-1]` (lower bounds are inherent to
`Nat`), and when the count is zero the range is the degenerate
`(0, 0, 0, 0)`. -/
theorem c1_viewport_range_bounds (rowHeight columnWidth : Nat → Nat)
    (rowCount columnCount scrollTop scrollLeft containerHeight containerWidth
      overscanCount : Nat) (isScrolling : Bool) (vDir hDir : Direction) :
    (0 < rowCount →
      (getVerticalRangeToRender rowHeight rowCount scrollTop containerHeight
          isScrolling vDir overscanCount).overscanStart ≤
        (getVerticalRangeToRender rowHeight rowCount scrollTop containerHeight
          isScrolling vDir overscanCount).overscanStop ∧
      (getVerticalRangeToRender rowHeight rowCount scrollTop containerHeight
          isScrolling vDir overscanCount).overscanStop ≤ rowCount - 1 ∧
      (getVerticalRangeToRender rowHeight rowCount scrollTop containerHeight
          isScrolling vDir overscanCount).startIndex ≤
        (getVerticalRangeToRender rowHeight rowCount scrollTop containerHeight
          isScrolling vDir overscanCount).stopIndex ∧
      (getVerticalRangeToRender rowHeight rowCount scrollTop containerHeight
          isScrolling vDir overscanCount).stopIndex ≤ rowCount - 1) ∧
    (rowCount = 0 →
      getVerticalRangeToRender rowHeight rowCount scrollTop containerHeight
          isScrolling vDir overscanCount
        = { overscanStart := 0, overscanStop := 0, startIndex := 0, stopIndex := 0 }) ∧
    (0 < columnCount →
      (getHorizontalRangeToRender columnWidth columnCount scrollLeft containerWidth
          isScrolling hDir overscanCount).overscanStart ≤
        (getHorizontalRangeToRender columnWidth columnCount scrollLeft containerWidth
          isScrolling hDir overscanCount).overscanStop ∧
      (getHorizontalRangeToRender columnWidth columnCount scrollLeft containerWidth
          isScrolling hDir overscanCount).overscanStop ≤ columnCount - 1 ∧
      (getHorizontalRangeToRender columnWidth columnCount scrollLeft containerWidth
          isScrolling hDir overscanCount).startIndex ≤
        (getHorizontalRangeToRender columnWidth columnCount scrollLeft containerWidth
          isScrolling hDir overscanCount).stopIndex ∧
      (getHorizontalRangeToRender columnWidth columnCount scrollLeft containerWidth
          isScrolling hDir overscanCount).stopIndex ≤ columnCount - 1) ∧
    (columnCount = 0 →
      getHorizontalRangeToRender columnWidth columnCount scrollLeft containerWidth
          isScrolling hDir overscanCount
        = { overscanStart := 0, overscanStop := 0, startIndex := 0, stopIndex := 0 }) := by
  refine ⟨verticalRangeToRender_valid _ _ _ _ _ _ _, fun h => ?_,
    horizontalRangeToRender_valid _ _ _ _ _ _ _, fun h => ?_⟩
  · subst h; exact verticalRangeToRender_degenerate _ _ _ _ _ _
  · subst h; exact horizontalRangeToRender_degenerate _ _ _ _ _ _

theorem c1_viewport_range_bounds_witness :
    (0 < 5) ∧
    (getVerticalRangeToRender (fun _ => 20) 5 30 45 true Direction.Down 3).overscanStart ≤
      (getVerticalRangeToRender (fun _ => 20) 5 30 45 true Direction.Down 3).overscanStop ∧
    (getVerticalRangeToRender (fun _ => 20) 5 30 45 true Direction.Down 3).overscanStop ≤ 4 ∧
    ((0 : Nat) = 0) ∧
    getHorizontalRangeToRender (fun _ => 60) 0 10 800 true Direction.Right 3
      = { overscanStart := 0, overscanStop := 0, startIndex := 0, stopIndex := 0 } := by
  have h := c1_viewport_range_bounds (fun _ => 20) (fun _ => 60) 5 0 30 10 45 800 3
    true Direction.Down Direction.Right
  exact ⟨by decide, (h.1 (by decide)).1, (h.1 (by decide)).2.1, rfl, h.2.2.2 rfl⟩

/-- C2: overscan is direction-sensitive.  While scrolling, the edge the
scroll moves away from gets exactly 1 and the edge it moves toward gets
`max 1 overscanCount`; when not scrolling both edges get
`max 1 overscanCount`; the horizontal axis mirrors this with Left/Right. -/
theorem c2_overscan_direction_sensitive (overscanCount : Nat) (dir : Direction) :
    overscanBackwardV true Direction.Down overscanCount = 1 ∧
    overscanForwardV true Direction.Down overscanCount = max 1 overscanCount ∧
    overscanBackwardV true Direction.Up overscanCount = max 1 overscanCount ∧
    overscanForwardV true Direction.Up overscanCount = 1 ∧
    overscanBackwardV false dir overscanCount = max 1 overscanCount ∧
    overscanForwardV false dir overscanCount = max 1 overscanCount ∧
    overscanBackwardH true Direction.Right overscanCount = 1 ∧
    overscanForwardH true Direction.Right overscanCount = max 1 overscanCount ∧
    overscanBackwardH true Direction.Left overscanCount = max 1 overscanCount ∧
    overscanForwardH true Direction.Left overscanCount = 1 ∧
    overscanBackwardH false dir overscanCount = max 1 overscanCount ∧
    overscanForwardH false dir overscanCount = max 1 overscanCount := by
  refine ⟨?_, ?_, ?_, ?_, ?_, ?_, ?_, ?_, ?_, ?_, ?_, ?_⟩ <;>
    simp [overscanBackwardV, overscanForwardV, overscanBackwardH, overscanForwardH]

/-- C5: supplying an axis index to `resetAfterIndices` lowers that axis's
last-measured index to `min(previous, index - 1)` and clears that axis's
recalc list, leaving the other axis's fields untouched; in particular a
reset from index 10 leaves the last-measured index strictly below 10. -/
theorem c5_resetAfterIndices_invalidate (inst : InstanceInterface)
    (columnIndex rowIndex : Nat) :
    (resetAfterIndices (some columnIndex) none inst).lastMeasuredColumnIndex
        = min inst.lastMeasuredColumnIndex ((columnIndex : Int) - 1) ∧
    (resetAfterIndices (some columnIndex) none inst).recalcColumnIndices = [] ∧
    (resetAfterIndices (some columnIndex) none inst).lastMeasuredRowIndex
        = inst.lastMeasuredRowIndex ∧
    (resetAfterIndices (some columnIndex) none inst).recalcRowIndices
        = inst.recalcRowIndices ∧
    (resetAfterIndices none (some rowIndex) inst).lastMeasuredRowIndex
        = min inst.lastMeasuredRowIndex ((rowIndex : Int) - 1) ∧
    (resetAfterIndices none (some rowIndex) inst).recalcRowIndices = [] ∧
    (resetAfterIndices none (some rowIndex) inst).lastMeasuredColumnIndex
        = inst.lastMeasuredColumnIndex ∧
    (resetAfterIndices none (some rowIndex) inst).recalcColumnIndices
        = inst.recalcColumnIndices ∧
    (resetAfterIndices (some 10) none inst).lastMeasuredColumnIndex < 10 ∧
    (resetAfterIndices none (some 10) inst).lastMeasuredRowIndex < 10 := by
  refine ⟨rfl, rfl, rfl, rfl, rfl, rfl, rfl, rfl, ?_, ?_⟩ <;>
    · simp only [resetAfterIndices]
      omega

/-- Concrete grid used to exhibit the behaviour of `scrollToItem` at target
index 0: one frozen row, uniform 20-pixel rows, current `scrollTop` 200. -/
def ctxC3 : GridCtx :=
  { rowHeight := fun _ => 20, columnWidth := fun _ => 60,
    frozenRows := 1, frozenColumns := 0,
    containerWidth := 800, containerHeight := 100,
    scrollLeft := 0, scrollTop := 200,
    rowStartIndex := 10, rowStopIndex := 15,
    columnStartIndex := 0, columnStopIndex := 10 }

/-- C3 is false as stated: with `frozenRows = 1` the target row 0 lies
inside the frozen region, yet `scrollToItem` computes a new vertical offset
(`some 0`), and applying it moves `scrollTop` from 200 to 0 — the truthy
check `rowIndex && rowIndex < frozenRows` treats index 0 as unfrozen. -/
theorem c3_counterexample :
    0 < ctxC3.frozenRows ∧ (0 : Nat) < ctxC3.frozenRows ∧
    (scrollToItem ctxC3 (some 0) none Align.start).scrollTop = some 0 ∧
    ctxC3.scrollTop = 200 ∧
    (scrollTo { scrollLeft := ctxC3.scrollLeft, scrollTop := ctxC3.scrollTop }
        (scrollToItem ctxC3 (some 0) none Align.start).scrollLeft
        (scrollToItem ctxC3 (some 0) none Align.start).scrollTop).scrollTop ≠ 200 := by
  decide

/-- C3 (amended): `scrollToItem` suppresses an axis's offset request
exactly when that axis's index is omitted, or is nonzero and below the
frozen count; index 0 is treated as unfrozen by the truthy frozen check
and always gets an offset computed.  A suppressed (`none`) request leaves
that axis's scroll position unchanged when applied through `scrollTo`. -/
theorem c3_frozen_target_suppression (ctx : GridCtx)
    (rowIndex? columnIndex? : Option Nat) (align : Align) :
    ((scrollToItem ctx rowIndex? columnIndex? align).scrollTop = none ↔
      rowIndex? = none ∨
        ∃ rowIndex, rowIndex? = some rowIndex ∧ 0 < rowIndex ∧
          rowIndex < ctx.frozenRows) ∧
    ((scrollToItem ctx rowIndex? columnIndex? align).scrollLeft = none ↔
      columnIndex? = none ∨
        ∃ columnIndex, columnIndex? = some columnIndex ∧ 0 < columnIndex ∧
          columnIndex < ctx.frozenColumns) ∧
    (∀ (prev : ScrollCoords) (newLeft : Option Nat),
      (scrollTo prev newLeft none).scrollTop = prev.scrollTop) ∧
    (∀ (prev : ScrollCoords) (newTop : Option Nat),
      (scrollTo prev none newTop).scrollLeft = prev.scrollLeft) := by
  refine ⟨?_, ?_, fun prev newLeft => rfl, fun prev newTop => rfl⟩
  · rcases rowIndex? with _ | rowIndex
    · simp [scrollToItem]
    · simp only [scrollToItem, isFrozenRow]
      by_cases h : rowIndex ≠ 0 ∧ rowIndex < ctx.frozenRows
      · rw [if_pos (by simp [h.1, h.2])]
        simp only [true_iff]
        exact Or.inr ⟨rowIndex, rfl, by omega, h.2⟩
      · rw [if_neg (by simpa using fun h1 h2 => h ⟨h1, h2⟩)]
        simp only [reduceCtorEq, false_iff]
        rintro (h' | ⟨ri, hri, h0, hlt⟩)
        · cases h'
        · obtain rfl : rowIndex = ri := by injection hri
          exact h ⟨by omega, hlt⟩
  · rcases columnIndex? with _ | columnIndex
    · simp [scrollToItem]
    · simp only [scrollToItem, isFrozenColumn]
      by_cases h : columnIndex ≠ 0 ∧ columnIndex < ctx.frozenColumns
      · rw [if_pos (by simp [h.1, h.2])]
        simp only [true_iff]
        exact Or.inr ⟨columnIndex, rfl, by omega, h.2⟩
      · rw [if_neg (by simpa using fun h1 h2 => h ⟨h1, h2⟩)]
        simp only [reduceCtorEq, false_iff]
        rintro (h' | ⟨ci, hci, h0, hlt⟩)
        · cases h'
        · obtain rfl : columnIndex = ci := by injection hci
          exact h ⟨by omega, hlt⟩

/-- C4 is false as stated: column 0 is 1000 pixels wide and the container
800 pixels, yet the requested `center` mode is kept, because
`columnIndex ? getColumnWidth(...) : 0` takes the width of target column 0
to be 0. -/
theorem c4_counterexample :
    getItemSize (fun _ => 1000) 0 = 1000 ∧ 800 < 1000 ∧
    scrollToItemColumnAlign (fun _ => 1000) (some 0) 800 Align.center
      = Align.center ∧
    Align.center ≠ Align.start := by
  decide

/-- C4 (amended): for a provided nonzero target index whose item extent
exceeds the container extent, the alignment used by `scrollToItem` degrades
to `start` on that axis; a target index 0 has its extent taken as 0, so the
requested mode is kept there regardless of the item's true size. -/
theorem c4_oversized_target_alignment (rowHeight columnWidth : Nat → Nat)
    (containerWidth containerHeight : Nat) (align : Align)
    (rowIndex columnIndex : Nat)
    (hc : columnIndex ≠ 0)
    (hw : containerWidth < getItemSize columnWidth columnIndex)
    (hr : rowIndex ≠ 0)
    (hh : containerHeight < getItemSize rowHeight rowIndex) :
    scrollToItemColumnAlign columnWidth (some columnIndex) containerWidth align
        = Align.start ∧
    scrollToItemRowAlign rowHeight (some rowIndex) containerHeight align
        = Align.start ∧
    scrollToItemColumnAlign columnWidth (some 0) containerWidth align = align ∧
    scrollToItemRowAlign rowHeight (some 0) containerHeight align = align := by
  obtain ⟨n, rfl⟩ : ∃ n, columnIndex = n + 1 := ⟨columnIndex - 1, by omega⟩
  obtain ⟨m, rfl⟩ : ∃ m, rowIndex = m + 1 := ⟨rowIndex - 1, by omega⟩
  refine ⟨?_, ?_, ?_, ?_⟩
  · simp only [scrollToItemColumnAlign, scrollToItemWidth, gt_iff_lt]
    rw [if_pos hw]
  · simp only [scrollToItemRowAlign, scrollToItemHeight, gt_iff_lt]
    rw [if_pos hh]
  · simp only [scrollToItemColumnAlign, scrollToItemWidth, gt_iff_lt]
    rw [if_neg (by omega)]
  · simp only [scrollToItemRowAlign, scrollToItemHeight, gt_iff_lt]
    rw [if_neg (by omega)]

theorem c4_oversized_target_alignment_witness :
    ((2 : Nat) ≠ 0) ∧ (800 < getItemSize (fun _ => 1000) 2) ∧
    ((3 : Nat) ≠ 0) ∧ (600 < getItemSize (fun _ => 900) 3) ∧
    scrollToItemColumnAlign (fun _ => 1000) (some 2) 800 Align.center
      = Align.start ∧
    scrollToItemRowAlign (fun _ => 900) (some 3) 600 Align.center
      = Align.start := by
  have h := c4_oversized_target_alignment (fun _ => 900) (fun _ => 1000)
    800 600 Align.center 3 2 (by decide) (by decide) (by decide) (by decide)
  exact ⟨by decide, by decide, by decide, by decide, h.1, h.2.1⟩

theorem getActualCellCoords_eq_bounds_anchor (regions : List AreaProps)
    (cell : CellInterface) :
    getActualCellCoords regions cell
      = ⟨(getCellBounds regions cell).top, (getCellBounds regions cell).left⟩ := by
  unfold getActualCellCoords getCellBounds
  cases mergedCellMap regions (cellIdentifier cell.rowIndex cell.columnIndex) <;> rfl

/-- C6: under the data-model invariant that merged regions do not overlap,
`getActualCellCoords` is idempotent; for a merged cell it returns the
owning region's top-left anchor and for a non-merged cell it returns the
input unchanged. -/
theorem c6_canonical_cell_idempotent (regions : List AreaProps)
    (cell : CellInterface) (hno : NoOverlap regions) :
    getActualCellCoords regions (getActualCellCoords regions cell)
        = getActualCellCoords regions cell ∧
    (isMergedCell regions cell = true →
      getActualCellCoords regions cell
        = ⟨(getCellBounds regions cell).top, (getCellBounds regions cell).left⟩) ∧
    (isMergedCell regions cell = false → getActualCellCoords regions cell = cell) := by
  refine ⟨?_, fun _ => getActualCellCoords_eq_bounds_anchor regions cell, fun h => ?_⟩
  · rw [getActualCellCoords_eq_bounds_anchor regions cell]
    exact getCellBounds_anchor_fixed hno cell
  · unfold isMergedCell at h
    unfold getActualCellCoords
    rcases hmap : mergedCellMap regions (cellIdentifier cell.rowIndex cell.columnIndex)
      with _ | b
    · rfl
    · rw [hmap] at h
      simp at h

theorem c6_canonical_cell_idempotent_witness :
    NoOverlap [⟨0, 0, 2, 1⟩, ⟨3, 0, 4, 3⟩] ∧
    getActualCellCoords [⟨0, 0, 2, 1⟩, ⟨3, 0, 4, 3⟩]
        (getActualCellCoords [⟨0, 0, 2, 1⟩, ⟨3, 0, 4, 3⟩] ⟨1, 2⟩)
      = getActualCellCoords [⟨0, 0, 2, 1⟩, ⟨3, 0, 4, 3⟩] ⟨1, 2⟩ ∧
    (isMergedCell [⟨0, 0, 2, 1⟩, ⟨3, 0, 4, 3⟩] ⟨1, 2⟩ = true →
      getActualCellCoords [⟨0, 0, 2, 1⟩, ⟨3, 0, 4, 3⟩] ⟨1, 2⟩
        = ⟨(getCellBounds [⟨0, 0, 2, 1⟩, ⟨3, 0, 4, 3⟩] ⟨1, 2⟩).top,
            (getCellBounds [⟨0, 0, 2, 1⟩, ⟨3, 0, 4, 3⟩] ⟨1, 2⟩).left⟩) ∧
    (isMergedCell [⟨0, 0, 2, 1⟩, ⟨3, 0, 4, 3⟩] ⟨1, 2⟩ = false →
      getActualCellCoords [⟨0, 0, 2, 1⟩, ⟨3, 0, 4, 3⟩] ⟨1, 2⟩ = ⟨1, 2⟩) :=
  ⟨by decide, c6_canonical_cell_idempotent [⟨0, 0, 2, 1⟩, ⟨3, 0, 4, 3⟩] ⟨1, 2⟩ (by decide)⟩

/-- C10: under the non-overlap invariant, every cell returned by the pixel
hit-test `getCellCoordsFromOffset` is canonical: applying
`getActualCellCoords` to it is the identity, so a hit inside a merged
region yields the region's top-left anchor, never an interior cell. -/
theorem c10_hit_test_returns_canonical (rowHeight columnWidth : Nat → Nat)
    (rowCount columnCount frozenRows frozenColumns scrollTop scrollLeft : Nat)
    (regions : List AreaProps) (x y : Nat) (hno : NoOverlap regions) :
    getActualCellCoords regions
        (getCellCoordsFromOffset rowHeight columnWidth rowCount columnCount
          frozenRows frozenColumns scrollTop scrollLeft regions x y)
      = getCellCoordsFromOffset rowHeight columnWidth rowCount columnCount
          frozenRows frozenColumns scrollTop scrollLeft regions x y := by
  simp only [getCellCoordsFromOffset]
  exact getCellBounds_anchor_fixed hno _

theorem c10_hit_test_returns_canonical_witness :
    NoOverlap [⟨0, 0, 1, 1⟩] ∧
    getActualCellCoords [⟨0, 0, 1, 1⟩]
        (getCellCoordsFromOffset (fun _ => 20) (fun _ => 60) 10 10 0 0 0 0
          [⟨0, 0, 1, 1⟩] 70 10)
      = getCellCoordsFromOffset (fun _ => 20) (fun _ => 60) 10 10 0 0 0 0
          [⟨0, 0, 1, 1⟩] 70 10 :=
  ⟨by decide, c10_hit_test_returns_canonical (fun _ => 20) (fun _ => 60)
    10 10 0 0 0 0 [⟨0, 0, 1, 1⟩] 70 10 (by decide)⟩

/-- C7: within one render pass over all four walks (main, frozen-row,
frozen-column, frozen-intersection), sharing the per-pass dedup set that
starts empty, the merged-region anchors handed to `itemRenderer` contain no
duplicates, and a merged region one of whose constituent cells is
enumerated by some walk is rendered exactly once. -/
theorem c7_merged_region_rendered_once (p : RenderParams)
    (regions : List AreaProps) :
    (renderPass regions (gridPassProbes p)).Nodup ∧
    (∀ (cell : CellInterface) (bounds : AreaProps),
      cell ∈ gridPassProbes p →
      mergedCellMap regions (cellIdentifier cell.rowIndex cell.columnIndex)
        = some bounds →
      cellIdentifier bounds.top bounds.left ∈ renderPass regions (gridPassProbes p)) := by
  have hinv := processCell_fold_inv regions (gridPassProbes p) ([], [])
    List.nodup_nil (fun a => Iff.rfl)
  refine ⟨hinv.1, fun cell bounds hmem hmap => ?_⟩
  have hhit := processCell_fold_hit regions (gridPassProbes p) ([], []) cell bounds
    hmem hmap
  exact (hinv.2 _).mpr hhit

/-- Render parameters for the C7 witness: one frozen row, a merged region
spanning the frozen row and the first scrollable row. -/
def paramsC7 : RenderParams :=
  { rowCount := 4, columnCount := 4, frozenRows := 1, frozenColumns := 0,
    rowStartIndex := 0, rowStopIndex := 3, columnStartIndex := 0,
    columnStopIndex := 3, isHiddenRow := fun _ => false }

theorem c7_merged_region_rendered_once_witness :
    (⟨1, 1⟩ : CellInterface) ∈ gridPassProbes paramsC7 ∧
    mergedCellMap [⟨0, 1, 2, 1⟩] (cellIdentifier 1 1) = some ⟨0, 1, 2, 1⟩ ∧
    (renderPass [⟨0, 1, 2, 1⟩] (gridPassProbes paramsC7)).Nodup ∧
    cellIdentifier 0 1 ∈ renderPass [⟨0, 1, 2, 1⟩] (gridPassProbes paramsC7) :=
  ⟨by decide, by decide,
    (c7_merged_region_rendered_once paramsC7 [⟨0, 1, 2, 1⟩]).1,
    (c7_merged_region_rendered_once paramsC7 [⟨0, 1, 2, 1⟩]).2 ⟨1, 1⟩ ⟨0, 1, 2, 1⟩
      (by decide) (by decide)⟩

/-- Grid context for the C8 witness. -/
def ctxC8 : GridCtx :=
  { rowHeight := fun _ => 20, columnWidth := fun _ => 60,
    frozenRows := 0, frozenColumns := 0,
    containerWidth := 800, containerHeight := 600,
    scrollLeft := 0, scrollTop := 0,
    rowStartIndex := 2, rowStopIndex := 5,
    columnStartIndex := 1, columnStopIndex := 3 }

/-- C8: `scrollToItem` defers applying the computed offsets to the next
animation frame exactly when a provided target index exceeds the rendered
window's stop index by more than the window's span on that axis; otherwise
the offsets are applied synchronously in the current cycle. -/
theorem c8_defer_iff_far_outside (ctx : GridCtx)
    (rowIndex? columnIndex? : Option Nat) (align : Align)
    (_hr : ctx.rowStartIndex ≤ ctx.rowStopIndex)
    (_hc : ctx.columnStartIndex ≤ ctx.columnStopIndex) :
    (scrollToItem ctx rowIndex? columnIndex? align).deferred = true ↔
      (∃ rowIndex, rowIndex? = some rowIndex ∧
        ctx.rowStopIndex + (ctx.rowStopIndex - ctx.rowStartIndex) < rowIndex) ∨
      (∃ columnIndex, columnIndex? = some columnIndex ∧
        ctx.columnStopIndex + (ctx.columnStopIndex - ctx.columnStartIndex)
          < columnIndex) := by
  rcases rowIndex? with _ | rowIndex <;> rcases columnIndex? with _ | columnIndex <;>
    simp [scrollToItem, isOutsideViewport]

theorem c8_defer_iff_far_outside_witness :
    ctxC8.rowStartIndex ≤ ctxC8.rowStopIndex ∧
    ctxC8.columnStartIndex ≤ ctxC8.columnStopIndex ∧
    ((scrollToItem ctxC8 (some 20) none Align.smart).deferred = true ↔
      (∃ rowIndex, (some 20 : Option Nat) = some rowIndex ∧
        ctxC8.rowStopIndex + (ctxC8.rowStopIndex - ctxC8.rowStartIndex) < rowIndex) ∨
      (∃ columnIndex, (none : Option Nat) = some columnIndex ∧
        ctxC8.columnStopIndex + (ctxC8.columnStopIndex - ctxC8.columnStartIndex)
          < columnIndex)) :=
  ⟨by decide, by decide,
    c8_defer_iff_far_outside ctxC8 (some 20) none Align.smart (by decide) (by decide)⟩

theorem getLast?_cons_getD (e : Nat) (es : List Nat) :
    (e :: es).getLast? = some (es.getLast?.getD e) := by
  induction es generalizing e with
  | nil => rfl
  | cons t ts ih =>
      rw [List.getLast?_cons_cons, ih t]
      simp

/-- C9: each scroll event sets `isScrolling` and reschedules the single
debounce timer at its time plus the 150-unit interval; over a burst whose
consecutive events are less than the interval apart, exactly one clearing
transition fires, at the last event's time plus the interval, and never
mid-burst. -/
theorem c9_debounce_single_clear (events : List Nat) (tlast : Nat)
    (hchain : events.Chain'
      (fun a b => a < b ∧ b < a + RESET_SCROLL_EVENTS_DEBOUNCE_INTERVAL))
    (hlast : events.getLast? = some tlast) :
    runBurst events
        = { pending := none, isScrolling := false,
            clears := [tlast + RESET_SCROLL_EVENTS_DEBOUNCE_INTERVAL] } ∧
    (∀ (s : DebounceState) (t : Nat),
      (scrollEvent s t).isScrolling = true ∧
      (scrollEvent s t).pending = some (t + RESET_SCROLL_EVENTS_DEBOUNCE_INTERVAL)) := by
  refine ⟨?_, fun s t => ⟨rfl, rfl⟩⟩
  rcases events with _ | ⟨e, es⟩
  · cases hlast
  · rw [getLast?_cons_getD] at hlast
    obtain rfl : tlast = es.getLast?.getD e := by injection hlast; omega
    unfold runBurst
    simp only [List.foldl_cons]
    have hfirst : scrollEvent (fireDue
        { pending := none, isScrolling := false, clears := [] } e) e
        = { pending := some (e + RESET_SCROLL_EVENTS_DEBOUNCE_INTERVAL),
            isScrolling := true, clears := [] } := rfl
    rw [hfirst, runBurst_aux es e [] hchain]
    rfl

theorem c9_debounce_single_clear_witness :
    ([0, 50, 100, 140, 141] : List Nat).Chain'
      (fun a b => a < b ∧ b < a + RESET_SCROLL_EVENTS_DEBOUNCE_INTERVAL) ∧
    ([0, 50, 100, 140, 141] : List Nat).getLast? = some 141 ∧
    runBurst [0, 50, 100, 140, 141]
      = { pending := none, isScrolling := false, clears := [291] } := by
  have hchain : ([0, 50, 100, 140, 141] : List Nat).Chain'
      (fun a b => a < b ∧ b < a + RESET_SCROLL_EVENTS_DEBOUNCE_INTERVAL) := by
    refine List.Chain.cons (by decide) (List.Chain.cons (by decide)
      (List.Chain.cons (by decide) (List.Chain.cons (by decide) List.Chain.nil)))
  exact ⟨hchain, by decide,
    (c9_debounce_single_clear [0, 50, 100, 140, 141] 141 hchain (by decide)).1⟩
